import Mathlib

/-!
Verification of the ngago generic repository / REST controller layer.

The Go code is shallowly embedded: Go strings become `List Char`, the
beego `orm.QuerySeter` becomes a list of driver operations (`Query`),
registered filter functions become Lean functions, and fallible or
panicking code paths return `Option` (with `none` standing for a runtime
panic). Go maps (the filter registry, the filters map, the request
parameters) are embedded as association lists; map assignment and lookup
are modelled by `mapSet` / `mapGet?`.
-/

/-- Go strings, modelled as lists of characters. -/
abbrev GoStr := List Char

/-- A value handed to the driver's `Filter(field, value)` call:
`IdFilter` passes an `int`, `StartsWithFilter`/`ContainsWithFilter` pass a
string, `BooleanFilter` passes a bool. -/
inductive FVal
  | int (i : Int)
  | str (s : GoStr)
  | bool (b : Bool)
  deriving DecidableEq

/-- One operation applied to an `orm.QuerySeter` by the repository code:
`Filter`, `OrderBy`, `Limit` or `Offset`. -/
inductive QOp
  | filter (field : GoStr) (value : FVal)
  | orderBy (fields : List GoStr)
  | limit (n : Int)
  | offset (n : Int)
  deriving DecidableEq

/-- The query handed to the persistence driver: the base
`QueryTable(table)` query (modelled as `[]`) with the operations the
repository chained onto it, in application order. -/
abbrev Query := List QOp

/-- A value of Go dynamic type `interface\x7b\x7d` as produced by
`json.Unmarshal` into `map[string]interface\x7b\x7d` or by reading a request
parameter: a JSON string, number (Go `float64`), boolean, null, array or
object. -/
inductive GoVal
  | str (s : GoStr)
  | num (x : Float)
  | bool (b : Bool)
  | null
  | arr (elems : List GoVal)
  | obj (fields : List (GoStr × GoVal))

/-- `type FilterFunc func(qs orm.QuerySeter, field, value string) orm.QuerySeter`. -/
abbrev FilterFunc := Query → GoStr → GoStr → Query

/-- The repository's `filterMap map[string]FilterFunc`, as an association
list. A Go map can hold a `nil` function value for a present key, so the
stored value is an `Option FilterFunc` (`none` = registered nil). -/
abbrev FilterMap := List (GoStr × Option FilterFunc)

/-- The `Filters map[string]interface\x7b\x7d` field of `QueryOptions`, as an
association list (Go map iteration order is unspecified; the list fixes
one order). -/
abbrev Filters := List (GoStr × GoVal)

/-- Go map assignment `m[k] = v`: overwrite the entry for `k` when
present, otherwise add it. -/
def mapSet (m : List (GoStr × α)) (k : GoStr) (v : α) : List (GoStr × α) :=
  match m with
  | [] => [(k, v)]
  | (k', v') :: rest => if k' = k then (k, v) :: rest else (k', v') :: mapSet rest k v

/-- Go map lookup `v, ok := m[k]`: `some v` when the key is present
(`ok = true`), `none` otherwise. -/
def mapGet? (m : List (GoStr × α)) (k : GoStr) : Option α :=
  match m with
  | [] => none
  | (k', v') :: rest => if k' = k then some v' else mapGet? rest k

/-- Model of Go `unicode.IsSpace` on the Latin-1 range Go special-cases
(`'\t'`, `'\n'`, vertical tab, form feed, `'\r'`, `' '`, U+0085, U+00A0);
all characters appearing in this development are ASCII. -/
def goIsSpace (c : Char) : Bool :=
  c = ' ' || c = '\t' || c = '\n' || c = Char.ofNat 11 || c = Char.ofNat 12 ||
    c = '\r' || c = Char.ofNat 0x85 || c = Char.ofNat 0xA0

/-- Model of Go `strings.TrimSpace`: drop leading and trailing whitespace. -/
def trimSpaceL (s : GoStr) : GoStr :=
  ((s.dropWhile goIsSpace).reverse.dropWhile goIsSpace).reverse

/-- Model of Go `strings.Split(s, ",")`: splitting the empty string yields
`[""]`, and a trailing separator yields a trailing empty field. -/
def splitComma : GoStr → List GoStr
  | [] => [[]]
  | c :: rest =>
    if c = ',' then [] :: splitComma rest
    else
      match splitComma rest with
      | g :: gs => (c :: g) :: gs
      | [] => [[c]]

/-- Model of Go `strings.Replace(s, ".", "__", -1)` for the
single-character pattern `"."`: every dot becomes two underscores. -/
def replaceDotsL : GoStr → GoStr
  | [] => []
  | c :: rest => (if c = '.' then ['_', '_'] else [c]) ++ replaceDotsL rest

/-- Model of Go `strings.TrimSuffix(s, suffix)`. -/
def trimSuffixL (s suffix : GoStr) : GoStr :=
  if suffix.isSuffixOf s then s.take (s.length - suffix.length) else s

/-- ASCII model of Go `strings.ToLower` (the order-flag strings compared
against `"desc"` are ASCII). -/
def goToLowerChar (c : Char) : Char :=
  if 'A' ≤ c && c ≤ 'Z' then Char.ofNat (c.toNat + 32) else c

/-- Lowercase a Go string. -/
def toLowerL (s : GoStr) : GoStr := s.map goToLowerChar

/-- Digits of a decimal literal: `some` of the value when the string is
non-empty and all characters are `'0'..'9'`, else `none`. -/
def digitsVal (s : GoStr) : Option Nat :=
  if s = [] || !s.all (fun c => '0' ≤ c && c ≤ '9') then none
  else some (s.foldl (fun acc c => acc * 10 + (c.toNat - '0'.toNat)) 0)

/-- Model of Go `strconv.Atoi(value)` with the returned error discarded,
as in `IdFilter` (`id, _ := strconv.Atoi(value)`): an optional sign
followed by at least one digit parses to its value, clamped to the 64-bit
int range on overflow (Go returns the clamped value with `ErrRange`); any
syntactically malformed input yields 0 (with `ErrSyntax`). -/
def goAtoi (s : GoStr) : Int :=
  match s with
  | '+' :: rest =>
    match digitsVal rest with
    | none => 0
    | some n => if (n : Int) ≤ 2 ^ 63 - 1 then (n : Int) else 2 ^ 63 - 1
  | '-' :: rest =>
    match digitsVal rest with
    | none => 0
    | some n => if (n : Int) ≤ 2 ^ 63 then -(n : Int) else -(2 ^ 63)
  | _ =>
    match digitsVal s with
    | none => 0
    | some n => if (n : Int) ≤ 2 ^ 63 - 1 then (n : Int) else 2 ^ 63 - 1

/-- Model of `strconv.FormatFloat(i, 'f', -1, 64)`. No theorem in this
development depends on the exact decimal rendering of a float, only on
the coercion being defined for numeric values. -/
def formatFloat (x : Float) : GoStr := (toString x).toList

/-- `QueryOptions` (base_repository.go lines 13-19). The Go fields are
`Sort`, `Order`, `Offset`, `Max`, `Filters`; `Sort` is a reserved word in
Lean, so the fields are embedded in lowercase. `sort`, `order` are Go
strings; `offset`, `max` are Go `int`s; `filters` is the
`map[string]interface\x7b\x7d` of filter entries. -/
structure QueryOptions where
  sort : GoStr
  order : GoStr
  offset : Int
  max : Int
  filters : Filters

/-!  Repository: query translation (base_repository.go).  -/

/-- The per-field body of the sort loop in `AddOptions` (lines 138-148):
trim the field; when the global order flag is `desc`, toggle the leading
`'-'` (Go indexes `s[0]`, which panics — `none` — on an empty trimmed
field; under the guard `s[0] == '-'`, `strings.TrimPrefix(s, "-")` always
strips exactly the leading `'-'`); finally rewrite `"."` to `"__"`. -/
def sortFieldTransform (reverse : Bool) (s : GoStr) : Option GoStr :=
  let t := trimSpaceL s
  if reverse then
    match t with
    | [] => none
    | c :: rest =>
      if c = '-' then some (replaceDotsL rest)
      else some (replaceDotsL ('-' :: c :: rest))
  else
    some (replaceDotsL t)

/-- Apply an option-returning function to every element, failing (as the
Go loop panics) as soon as one element fails. -/
def mapOption (g : α → Option β) : List α → Option (List β)
  | [] => some []
  | a :: as =>
    match g a with
    | none => none
    | some b =>
      match mapOption g as with
      | none => none
      | some bs => some (b :: bs)

/-- `BaseRepository.AddOptions` (lines 131-159): with no options the query
is unchanged; otherwise the sort specification is split on `","` and every
field is transformed by the sort loop (which can panic), then `OrderBy` is
chained only when `Sort` is non-empty, `Limit` only when `Max > 0`, and
`Offset` only when `Offset > 0`. -/
def AddOptions (qs : Query) (options : List QueryOptions) : Option Query :=
  match options with
  | [] => some qs
  | opt :: _ =>
    let reverse := toLowerL opt.order == "desc".toList
    match mapOption (sortFieldTransform reverse) (splitComma opt.sort) with
    | none => none
    | some sortFields =>
      let qs1 := if opt.sort = [] then qs else qs ++ [QOp.orderBy sortFields]
      let qs2 := if opt.max > 0 then qs1 ++ [QOp.limit opt.max] else qs1
      let qs3 := if opt.offset > 0 then qs2 ++ [QOp.offset opt.offset] else qs2
      some qs3

/-- `IdFilter` (lines 184-188): trim the suffix `"Id"` (note: only the
capitalized form; `strings.TrimSuffix` leaves a name ending in the
lowercase `"__id"` unchanged), append `"__id"`, and filter by equality
with `strconv.Atoi(value)`, the parse error discarded. -/
def IdFilter (qs : Query) (field value : GoStr) : Query :=
  qs ++ [QOp.filter (trimSuffixL field "Id".toList ++ "__id".toList) (FVal.int (goAtoi value))]

/-- `BooleanFilter` (lines 190-192). -/
def BooleanFilter (qs : Query) (field value : GoStr) : Query :=
  qs ++ [QOp.filter field (FVal.bool (value == "true".toList))]

/-- `StartsWithFilter` (lines 194-196): case-insensitive prefix match. -/
def StartsWithFilter (qs : Query) (field value : GoStr) : Query :=
  qs ++ [QOp.filter (field ++ "__istartswith".toList) (FVal.str value)]

/-- `ContainsWithFilter` (lines 198-200). -/
def ContainsWithFilter (qs : Query) (field value : GoStr) : Query :=
  qs ++ [QOp.filter (field ++ "__icontains".toList) (FVal.str value)]

/-- The value coercion at lines 165-170 of `AddFilters`: a `float64` is
formatted with `strconv.FormatFloat(i, 'f', -1, 64)`, anything else goes
through the unchecked type assertion `v.(string)`, which panics (`none`)
unless the value is a string. -/
def coerceToString : GoVal → Option GoStr
  | GoVal.str s => some s
  | GoVal.num x => some (formatFloat x)
  | _ => none

/-- The suffix test at line 174:
`strings.HasSuffix(fn, "Id") || strings.HasSuffix(fn, "__id")`. -/
def hasIdSuffix (fn : GoStr) : Bool :=
  "Id".toList.isSuffixOf fn || "__id".toList.isSuffixOf fn

/-- The body of the filter loop in `AddFilters` (lines 163-178) for one
entry `(f, v)`: rewrite the field, coerce the value (panic on a
non-string non-float value), then dispatch: a map entry for the original
name `f` wins (a registered `nil` function is called and panics — `none`);
else the id-suffix rule; else the prefix-match rule. -/
def addOneFilter (registry : FilterMap) (qs : Query) (f : GoStr) (v : GoVal) : Option Query :=
  let fn := replaceDotsL f
  match coerceToString v with
  | none => none
  | some s =>
    match mapGet? registry f with
    | some ff =>
      match ff with
      | some g => some (g qs fn s)
      | none => none
    | none =>
      if hasIdSuffix fn then some (IdFilter qs fn s)
      else some (StartsWithFilter qs fn s)

/-- The filter loop of `AddFilters` over all entries, in list order. -/
def foldFilters (registry : FilterMap) (qs : Query) : Filters → Option Query
  | [] => some qs
  | (f, v) :: rest =>
    match addOneFilter registry qs f v with
    | none => none
    | some qs' => foldFilters registry qs' rest

/-- `BaseRepository.AddFilters` (lines 161-182): with no options the query
is unchanged, otherwise every entry of `options[0].Filters` is dispatched. -/
def AddFilters (registry : FilterMap) (qs : Query) (options : List QueryOptions) : Option Query :=
  match options with
  | [] => some qs
  | opt :: _ => foldFilters registry qs opt.filters

/-- `BaseRepository.AddFilter` (lines 64-66): `r.filterMap[field] = function`.
A Go `nil` function argument is `none`. -/
def AddFilter (m : FilterMap) (field : GoStr) (function : Option FilterFunc) : FilterMap :=
  mapSet m field function

namespace BaseRepository

/-- The query `Count` (lines 97-101) hands to the driver's `Count()`:
`AddFilters(QueryTable(table), options)` — `AddOptions` is never called,
so only the `Filters` field of the options is read. -/
def CountQuery (registry : FilterMap) (options : List QueryOptions) : Option Query :=
  AddFilters registry [] options

/-- The query `ReadAll` (lines 103-109) hands to the driver's `All`:
`AddOptions` then `AddFilters` on `QueryTable(table)`. -/
def ReadAllQuery (registry : FilterMap) (options : List QueryOptions) : Option Query :=
  match AddOptions [] options with
  | none => none
  | some qs => AddFilters registry qs options

end BaseRepository

/-!  Repository: write operations (base_repository.go lines 111-129). -/

/-- The error sentinel `orm.ErrNoRows` (`ErrNotFound`) versus any other
driver error. -/
inductive OrmErr
  | errNoRows
  | other (msg : GoStr)
  deriving DecidableEq

/-- What the driver returned from a write call: the affected-row count
and an optional error. -/
structure DriverResult where
  affected : Int
  err : Option OrmErr
  deriving DecidableEq

namespace BaseRepository

/-- `BaseRepository.Update` (lines 115-124): a driver error is returned
as-is; otherwise an affected count of zero is mapped to `ErrNotFound`. -/
def Update (res : DriverResult) : Option OrmErr :=
  match res.err with
  | some e => some e
  | none => if res.affected = 0 then some OrmErr.errNoRows else none

/-- `BaseRepository.Delete` (lines 126-129):
`_, err := r.Orm.QueryTable(r.table).Filter("Id", id).Delete(); return err`.
The affected-row count is discarded; only the driver error is returned. -/
def Delete (res : DriverResult) : Option OrmErr :=
  res.err

end BaseRepository

/-!  Controller: request option parsing (base_rest_controller.go). -/

/-- `BaseRESTController.parseFilters` (lines 162-178), taking the already
JSON-decoded `_filters` blob (lines 163-170; JSON decoding itself is the
external serializer) and the non-blob request query parameters, each with
its first provided value (the code reads only `v[0]`, and beego's
`Input()` maps every present parameter to a non-empty value list): every
parameter whose name does not start with `"_"` is written into the map
with plain map assignment, after the blob entries. -/
def parseFilters (blob : Filters) (params : List (GoStr × GoStr)) : Filters :=
  params.foldl
    (fun acc kv =>
      if "_".toList.isPrefixOf kv.1 then acc
      else mapSet acc kv.1 (GoVal.str kv.2))
    blob

/-- `BaseRESTController.parseOptions` (lines 180-195): `page` and
`perPage` are the values bound from `_page` / `_perPage` (defaults 1 and
0 when absent), the sort direction is lowercased, the offset is
`(page - 1) * perPage` and the max is `perPage`. -/
def parseOptions (page perPage : Int) (sortField sortDir : GoStr)
    (blob : Filters) (params : List (GoStr × GoStr)) : QueryOptions :=
  ⟨sortField, toLowerL sortDir, (page - 1) * perPage, perPage, parseFilters blob params⟩

/-!  Spec-side definitions and helper lemmas. -/

/-- Modelled from the spec (refinement reference for C3): the effective
direction of a sort field is the XOR of the field's own leading `'-'`
sign and the global descending flag; the field is whitespace-trimmed and
every `'.'` in the field path is rewritten to `"__"`. -/
def specSortField (descFlag : Bool) (s : GoStr) : GoStr :=
  let t := trimSpaceL s
  let sign : Bool := t.head? = some '-'
  let base : GoStr := if sign then t.tail else t
  (if Bool.xor sign descFlag then ['-'] else []) ++ replaceDotsL base

theorem replaceDotsL_dash (x : GoStr) : replaceDotsL ('-' :: x) = '-' :: replaceDotsL x := rfl

theorem sortFieldTransform_spec (d : Bool) (f : GoStr)
    (h : d = true → trimSpaceL f ≠ []) :
    sortFieldTransform d f = some (specSortField d f) := by
  unfold sortFieldTransform specSortField
  cases d with
  | false =>
    cases ht : trimSpaceL f with
    | nil => simp [ht]
    | cons c rest =>
      by_cases hc : c = '-'
      · subst hc; simp [ht, replaceDotsL_dash]
      · simp [ht, hc]
  | true =>
    cases ht : trimSpaceL f with
    | nil => exact absurd ht (h rfl)
    | cons c rest =>
      by_cases hc : c = '-'
      · subst hc; simp [ht]
      · simp [ht, hc, replaceDotsL_dash]

theorem mapOption_eq_map (g : α → Option β) (gs : α → β) (l : List α)
    (H : ∀ a ∈ l, g a = some (gs a)) : mapOption g l = some (l.map gs) := by
  induction l with
  | nil => rfl
  | cons a as ih =>
    simp [mapOption, H a (List.mem_cons_self a as),
      ih fun a' ha' => H a' (List.mem_cons_of_mem _ ha')]

/-- `AddOptions` on the base query, rewritten as one conditional
concatenation. -/
theorem AddOptions_nil_eq (opt : QueryOptions) :
    AddOptions [] [opt] =
      (mapOption (sortFieldTransform (toLowerL opt.order == "desc".toList))
          (splitComma opt.sort)).map
        (fun fields =>
          (if opt.sort = [] then [] else [QOp.orderBy fields])
            ++ (if opt.max > 0 then [QOp.limit opt.max] else [])
            ++ (if opt.offset > 0 then [QOp.offset opt.offset] else [])) := by
  cases hm : mapOption (sortFieldTransform (toLowerL opt.order == "desc".toList))
      (splitComma opt.sort) with
  | none => simp only [AddOptions]; rw [hm]; rfl
  | some fields =>
    simp only [AddOptions]
    rw [hm]
    by_cases h1 : opt.sort = [] <;> by_cases h2 : opt.max > 0 <;>
      by_cases h3 : opt.offset > 0 <;>
        simp [h1, h2, h3]

/-- The `Limit` arguments present in a query, in order. -/
def limitsOf (q : Query) : List Int :=
  q.filterMap fun op => match op with | QOp.limit n => some n | _ => none

/-- The `Offset` arguments present in a query, in order. -/
def offsetsOf (q : Query) : List Int :=
  q.filterMap fun op => match op with | QOp.offset n => some n | _ => none

/-- The `OrderBy` field lists present in a query, in order. -/
def ordersOf (q : Query) : List (List GoStr) :=
  q.filterMap fun op => match op with | QOp.orderBy fs => some fs | _ => none

/-!  Claim theorems. -/

/-- C1: The claim says `Delete` fails with `NotFound` when zero rows were
affected. The code discards the affected-row count
(`_, err := ...Delete()`), so a delete of a non-existent id, for which
the driver reports zero affected rows and no error, returns success —
while `Update`, which the claim's policy matches, does map a zero count
to `ErrNotFound`. -/
theorem delete_discards_affected_count :
    BaseRepository.Delete ⟨0, none⟩ = none ∧
    BaseRepository.Delete ⟨0, none⟩ ≠ some OrmErr.errNoRows ∧
    BaseRepository.Update ⟨0, none⟩ = some OrmErr.errNoRows := by decide

/-- C6: The claim says applying query options with an empty sort
specification is well-defined for every order flag, including `"desc"`.
In fact `strings.Split("", ",")` is `[""]` and the sort loop indexes
`s[0]` on the empty field when the flag is `desc`, panicking before the
`Sort != ""` guard is reached; with any non-`desc` flag the empty sort is
indeed ignored (no ordering, here on otherwise empty options). -/
theorem addOptions_empty_sort_desc_panics :
    AddOptions [] [⟨[], "desc".toList, 0, 0, []⟩] = none ∧
    AddOptions [] [⟨[], [], 0, 0, []⟩] = some [] := by decide

/-- C3 counterexample: the claim quantifies over every non-empty
comma-separated sort specification, but for the non-empty specification
`"a,"` (whose second field is empty after trimming) with the descending
flag set, the sort loop panics on `s[0]` and no order-by list is handed
to the driver at all. -/
theorem sort_trailing_comma_desc_panics :
    "a,".toList ≠ [] ∧
    AddOptions [] [⟨"a,".toList, "desc".toList, 0, 0, []⟩] = none := by decide

/-- C3 (amended): for every non-empty sort specification — provided that,
when the global descending flag (order flag `"desc"`, case-insensitive)
is set, every whitespace-trimmed field is non-empty — the order-by field
list handed to the driver consists of the whitespace-trimmed fields in
their original sequence, each with effective direction the XOR of the
field's own leading `'-'` sign and the global flag, and with every `'.'`
replaced by `"__"` (`specSortField`). -/
theorem addOptions_sort_xor_spec (opt : QueryOptions)
    (hne : opt.sort ≠ [])
    (hfields : (toLowerL opt.order == "desc".toList) = true →
      ∀ f ∈ splitComma opt.sort, trimSpaceL f ≠ []) :
    ∃ q, AddOptions [] [opt] = some q ∧
      ordersOf q =
        [(splitComma opt.sort).map (specSortField (toLowerL opt.order == "desc".toList))] := by
  have hmap : mapOption (sortFieldTransform (toLowerL opt.order == "desc".toList))
      (splitComma opt.sort)
      = some ((splitComma opt.sort).map (specSortField (toLowerL opt.order == "desc".toList))) :=
    mapOption_eq_map _ _ _ fun a ha =>
      sortFieldTransform_spec _ a (fun hd => hfields hd a ha)
  rw [AddOptions_nil_eq, hmap]
  refine ⟨_, rfl, ?_⟩
  by_cases h2 : opt.max > 0 <;> by_cases h3 : opt.offset > 0 <;>
    simp [ordersOf, hne, h2, h3]

/-- Witness for C3: sort `"name,-age"` with the descending flag yields the
order-by list `["-name", "age"]`, as in the spec's own example. -/
theorem addOptions_sort_xor_spec_witness :
    ∃ q, AddOptions [] [⟨"name,-age".toList, "desc".toList, 0, 0, []⟩] = some q ∧
      ordersOf q = [["-name".toList, "age".toList]] := by
  obtain ⟨q, h1, h2⟩ :=
    addOptions_sort_xor_spec ⟨"name,-age".toList, "desc".toList, 0, 0, []⟩
      (by decide) (by decide)
  exact ⟨q, h1, by rw [h2]; decide⟩

/-- The dispatch rule selected by the if/else chain of `AddFilters`
(lines 172-178), mirroring the source conditions in source order. -/
inductive DispatchRule
  | override
  | idSuffix
  | prefixMatch
  deriving DecidableEq

/-- Which rule the chain selects for a filter field. -/
def firedRule (registry : FilterMap) (f : GoStr) : DispatchRule :=
  if (mapGet? registry f).isSome then DispatchRule.override
  else if hasIdSuffix (replaceDotsL f) then DispatchRule.idSuffix
  else DispatchRule.prefixMatch

/-- C4: for every filter entry whose value passes the string coercion,
exactly one of the three dispatch rules fires — the registered override
(looked up by the original, un-rewritten field name) first, else the
id-suffix rule on the rewritten name, else the prefix-match rule — and a
registered override always wins regardless of the field's suffix shape.
The first three conjuncts characterize the fired rule (the three
right-hand conditions are pairwise exclusive and exhaustive); the last
three give the resulting query for each rule. -/
theorem filter_dispatch_trichotomy (registry : FilterMap) (qs : Query)
    (f : GoStr) (v : GoVal) (s : GoStr)
    (hv : coerceToString v = some s) :
    (firedRule registry f = DispatchRule.override ↔ (mapGet? registry f).isSome = true) ∧
    (firedRule registry f = DispatchRule.idSuffix ↔
      (mapGet? registry f).isSome = false ∧ hasIdSuffix (replaceDotsL f) = true) ∧
    (firedRule registry f = DispatchRule.prefixMatch ↔
      (mapGet? registry f).isSome = false ∧ hasIdSuffix (replaceDotsL f) = false) ∧
    (∀ g : FilterFunc, mapGet? registry f = some (some g) →
      addOneFilter registry qs f v = some (g qs (replaceDotsL f) s)) ∧
    (mapGet? registry f = none → hasIdSuffix (replaceDotsL f) = true →
      addOneFilter registry qs f v = some (IdFilter qs (replaceDotsL f) s)) ∧
    (mapGet? registry f = none → hasIdSuffix (replaceDotsL f) = false →
      addOneFilter registry qs f v = some (StartsWithFilter qs (replaceDotsL f) s)) := by
  cases hm : mapGet? registry f with
  | none =>
    cases hs : hasIdSuffix (replaceDotsL f) <;>
      simp [firedRule, addOneFilter, hm, hs, hv]
  | some ff =>
    refine ⟨by simp [firedRule, hm], by simp [firedRule, hm], by simp [firedRule, hm],
      ?_, by simp, by simp⟩
    intro g hg
    injection hg with hg'
    subst hg'
    simp [addOneFilter, hm, hv]

/-- Witness for C4: a registered override for `"nameId"` fires even
though the field has the `Id` suffix shape, and the dispatched query is
the override's result. -/
theorem filter_dispatch_trichotomy_witness :
    firedRule [("nameId".toList, some (fun qs _ _ => qs))] "nameId".toList
      = DispatchRule.override ∧
    addOneFilter [("nameId".toList, some (fun qs _ _ => qs))] []
      "nameId".toList (GoVal.str "7".toList) = some [] := by
  have h := filter_dispatch_trichotomy
    [("nameId".toList, some (fun qs _ _ => qs))] [] "nameId".toList
    (GoVal.str "7".toList) "7".toList rfl
  exact ⟨h.1.mpr rfl, h.2.2.2.1 (fun qs _ _ => qs) rfl⟩

/-- C5 counterexample: registering a `nil` filter function is not
equivalent to not registering one. With `AddFilter("name", nil)` the
dispatch on `"name"` finds the map entry and calls the nil function — a
runtime panic (`none`) — whereas with no registration the same field
falls through to the case-insensitive prefix-match rule. -/
theorem nil_filter_differs_from_absent :
    addOneFilter (AddFilter [] "name".toList none) [] "name".toList
      (GoVal.str "x".toList) = none ∧
    addOneFilter [] [] "name".toList (GoVal.str "x".toList)
      = some [QOp.filter "name__istartswith".toList (FVal.str "x".toList)] := by decide

/-- C5 (amended): registering a nil filter function via `AddFilter` is
not equivalent to absence: for every field with a nil registration,
dispatch selects the override entry and calls the nil function, which
panics, instead of falling through to the id-suffix or prefix-match
rule. -/
theorem nil_filter_registration_panics (registry : FilterMap) (qs : Query)
    (f : GoStr) (v : GoVal)
    (h : mapGet? registry f = some none) :
    addOneFilter registry qs f v = none := by
  cases hc : coerceToString v <;> simp [addOneFilter, h, hc]

/-- Witness for C5: dispatching field `"year"` after `AddFilter("year", nil)`
panics. -/
theorem nil_filter_registration_panics_witness :
    addOneFilter (AddFilter [] "year".toList none) [] "year".toList
      (GoVal.str "2020".toList) = none :=
  nil_filter_registration_panics (AddFilter [] "year".toList none) []
    "year".toList (GoVal.str "2020".toList) rfl

/-- C7 counterexample: the claim says the id filter strips the matched
suffix (`Id` or `__id`) and appends `__id`. For the filter field
`"artist.id"` — rewritten to `"artist__id"`, which matches only the
`"__id"` suffix form — `strings.TrimSuffix(field, "Id")` strips nothing,
so the driver receives an equality filter on `"artist__id__id"`, not on
`"artist__id"` as the claim's description would produce. -/
theorem id_join_suffix_not_stripped :
    addOneFilter [] [] "artist.id".toList (GoVal.str "3".toList)
      = some [QOp.filter "artist__id__id".toList (FVal.int 3)] ∧
    "artist__id__id".toList ≠ "artist__id".toList := by decide

/-- C7 (amended): for every filter field without a registered override
whose rewritten name ends in `Id` or `__id`, the driver receives an
equality filter on the rewritten field with a trailing `Id` stripped when
present (a name ending only in the lowercase `__id` form is left
unstripped) and `__id` appended, against `Atoi` of the value with the
error discarded — a syntactically malformed value silently yields 0, an
out-of-range one the clamped 64-bit bound. -/
theorem id_filter_dispatch (registry : FilterMap) (qs : Query)
    (f : GoStr) (v : GoVal) (s : GoStr)
    (hv : coerceToString v = some s)
    (hover : mapGet? registry f = none)
    (hsuf : hasIdSuffix (replaceDotsL f) = true) :
    addOneFilter registry qs f v =
      some (qs ++ [QOp.filter
        (trimSuffixL (replaceDotsL f) "Id".toList ++ "__id".toList)
        (FVal.int (goAtoi s))]) := by
  simp [addOneFilter, hv, hover, hsuf, IdFilter]

/-- Witness for C7: field `"albumId"` with the malformed value `"x"`
produces an equality filter on `"album__id"` against 0. -/
theorem id_filter_dispatch_witness :
    addOneFilter [] [] "albumId".toList (GoVal.str "x".toList)
      = some ([] ++ [QOp.filter
          (trimSuffixL (replaceDotsL "albumId".toList) "Id".toList ++ "__id".toList)
          (FVal.int (goAtoi "x".toList))]) :=
  id_filter_dispatch [] [] "albumId".toList (GoVal.str "x".toList)
    "x".toList rfl rfl (by decide)

/-- Whether a dynamic value is a Go string or a `float64` — the only two
types the filter-value coercion handles. -/
def isStrOrNum : GoVal → Bool
  | GoVal.str _ => true
  | GoVal.num _ => true
  | _ => false

/-- C10: filter dispatch is only defined for string and `float64` values:
for a value of any other dynamic type (boolean, null, array, object) the
unchecked type assertion `v.(string)` panics, so `AddFilters` on an entry
carrying such a value is undefined (`none`) for every registry, query and
field — the value is neither coerced nor rejected gracefully. -/
theorem filter_value_type_assertion_panics (v : GoVal)
    (hv : isStrOrNum v = false) :
    coerceToString v = none ∧
    ∀ (registry : FilterMap) (qs : Query) (f : GoStr),
      addOneFilter registry qs f v = none := by
  have hc : coerceToString v = none := by
    cases v <;> simp_all [isStrOrNum, coerceToString]
  exact ⟨hc, fun registry qs f => by simp [addOneFilter, hc]⟩

/-- Witness for C10: a boolean filter value (as the JSON blob
`\x7b"public": true\x7d` would produce) panics the dispatch. -/
theorem filter_value_type_assertion_panics_witness :
    coerceToString (GoVal.bool true) = none ∧
    addOneFilter [] [] "public".toList (GoVal.bool true) = none := by
  have h := filter_value_type_assertion_panics (GoVal.bool true) (by decide)
  exact ⟨h.1, h.2 [] [] "public".toList⟩

theorem mapGet_mapSet_self (m : List (GoStr × α)) (k : GoStr) (v : α) :
    mapGet? (mapSet m k v) k = some v := by
  induction m with
  | nil => simp [mapSet, mapGet?]
  | cons kv rest ih =>
    by_cases h : kv.1 = k <;> simp [mapSet, mapGet?, h, ih]

theorem mapGet_mapSet_ne (m : List (GoStr × α)) (k k' : GoStr) (v : α)
    (h : k' ≠ k) : mapGet? (mapSet m k' v) k = mapGet? m k := by
  induction m with
  | nil => simp [mapSet, mapGet?, h]
  | cons kv rest ih =>
    by_cases hk : kv.1 = k'
    · simp [mapSet, mapGet?, hk, h, Ne.symm h]
    · by_cases hk2 : kv.1 = k <;>
        simp [mapSet, mapGet?, hk, hk2, ih, Ne.symm h]

theorem parseFilters_no_key (blob : Filters) (params : List (GoStr × GoStr))
    (k : GoStr) (h : ∀ kv ∈ params, kv.1 ≠ k) :
    mapGet? (parseFilters blob params) k = mapGet? blob k := by
  induction params generalizing blob with
  | nil => rfl
  | cons kv rest ih =>
    show mapGet? (parseFilters _ rest) k = _
    rw [ih _ fun kv' hkv' => h kv' (List.mem_cons_of_mem _ hkv')]
    show mapGet? (if "_".toList.isPrefixOf kv.1 = true then blob
      else mapSet blob kv.1 (GoVal.str kv.2)) k = mapGet? blob k
    split
    · rfl
    · exact mapGet_mapSet_ne blob k kv.1 (GoVal.str kv.2)
        (h kv (List.mem_cons_self kv rest))

/-- C2 counterexample: the claim says a key defined both in the JSON
`_filters` blob and as an implicit query parameter keeps the blob's
value. With blob entry `name ↦ "a"` and query parameter `name=b`, the
merged filters map `name` to `"b"`: `filters[k] = v[0]` overwrites the
blob entry. -/
theorem blob_value_overwritten_by_param :
    mapGet? (parseFilters [("name".toList, GoVal.str "a".toList)]
        [("name".toList, "b".toList)]) "name".toList
      = some (GoVal.str "b".toList) ∧
    GoVal.str "b".toList ≠ GoVal.str "a".toList := by
  refine ⟨rfl, fun h => ?_⟩
  injection h with h'
  exact absurd h' (by decide)

/-- C2 (amended): implicit query-parameter entries are added after the
blob entries and DO overwrite identically-named keys already set by the
blob — last write wins in processing order. For every parameter list with
distinct names, every non-reserved parameter's (first) value is the one
the merged filters carry, whatever the blob said. -/
theorem parseFilters_param_overwrites_blob (blob : Filters)
    (params : List (GoStr × GoStr)) (k v : GoStr)
    (hk : "_".toList.isPrefixOf k = false)
    (hnd : (params.map Prod.fst).Nodup)
    (hmem : (k, v) ∈ params) :
    mapGet? (parseFilters blob params) k = some (GoVal.str v) := by
  induction params generalizing blob with
  | nil => cases hmem
  | cons kv rest ih =>
    rcases List.mem_cons.mp hmem with heq | hmem'
    · subst heq
      show mapGet? (parseFilters _ rest) k = _
      have hrest : ∀ kv' ∈ rest, kv'.1 ≠ k := by
        intro kv' hkv' hc
        have hmm : kv'.1 ∈ rest.map Prod.fst := List.mem_map_of_mem Prod.fst hkv'
        rw [hc] at hmm
        exact (List.nodup_cons.mp hnd).1 hmm
      rw [parseFilters_no_key _ rest k hrest]
      show mapGet? (if "_".toList.isPrefixOf k = true then blob
        else mapSet blob k (GoVal.str v)) k = some (GoVal.str v)
      split
      · next hcond => rw [hk] at hcond; cases hcond
      · exact mapGet_mapSet_self blob k (GoVal.str v)
    · exact ih _ (List.nodup_cons.mp hnd).2 hmem'

/-- Witness for C2: blob `name ↦ "a"`, parameter `color=Red`; the merged
filters carry `color ↦ "Red"`. -/
theorem parseFilters_param_overwrites_blob_witness :
    mapGet? (parseFilters [("name".toList, GoVal.str "a".toList)]
        [("color".toList, "Red".toList)]) "color".toList
      = some (GoVal.str "Red".toList) :=
  parseFilters_param_overwrites_blob [("name".toList, GoVal.str "a".toList)]
    [("color".toList, "Red".toList)] "color".toList "Red".toList
    (by decide) (by decide) (by decide)

/-- C8: `Count` builds its query with `AddFilters` alone — it never calls
`AddOptions` — so two options values with the same filter entries produce
the same query for the driver's `Count()` (and hence the same result),
whatever their sort specification, order flag, offset and max. -/
theorem count_query_ignores_sort_pagination (registry : FilterMap)
    (o1 o2 : QueryOptions) (h : o1.filters = o2.filters) :
    BaseRepository.CountQuery registry [o1] = BaseRepository.CountQuery registry [o2] := by
  simp [BaseRepository.CountQuery, AddFilters, h]

/-- Witness for C8: options with sort `"name"`, order `"desc"`, offset 20
and max 10 count the same query as all-empty options with the same single
filter entry. -/
theorem count_query_ignores_sort_pagination_witness :
    BaseRepository.CountQuery []
        [⟨"name".toList, "desc".toList, 20, 10, [("genreId".toList, GoVal.str "7".toList)]⟩]
      = BaseRepository.CountQuery []
        [⟨[], [], 0, 0, [("genreId".toList, GoVal.str "7".toList)]⟩] :=
  count_query_ignores_sort_pagination [] _ _ rfl

/-- C9: for a request with page `p` and per-page `n`, the parsed options
carry offset `(p-1)*n` and max `n`, and in the query handed to the store
a `Limit` is present exactly when `max > 0` (with argument `max`) and an
`Offset` exactly when `offset > 0` (with argument `offset`). -/
theorem parseOptions_pagination (p n : Int) (sf sd : GoStr) (blob : Filters)
    (params : List (GoStr × GoStr)) (q : Query)
    (hq : AddOptions [] [parseOptions p n sf sd blob params] = some q) :
    (parseOptions p n sf sd blob params).offset = (p - 1) * n ∧
    (parseOptions p n sf sd blob params).max = n ∧
    limitsOf q = (if n > 0 then [n] else []) ∧
    offsetsOf q = (if (p - 1) * n > 0 then [(p - 1) * n] else []) := by
  rw [AddOptions_nil_eq] at hq
  obtain ⟨fields, hf, rfl⟩ := Option.map_eq_some'.mp hq
  refine ⟨rfl, rfl, ?_, ?_⟩ <;>
    by_cases h1 : sf = ([] : GoStr) <;> by_cases h2 : n > 0 <;>
      by_cases h3 : (p - 1) * n > 0 <;>
        simp [limitsOf, offsetsOf, parseOptions, h1, h2, h3]

/-- Witness for C9: page 2 with 10 per page and sort `"name"` yields
offset 10, max 10, and a query with exactly `Limit 10` and `Offset 10`. -/
theorem parseOptions_pagination_witness :
    (parseOptions 2 10 "name".toList [] [] []).offset = (2 - 1) * 10 ∧
    (parseOptions 2 10 "name".toList [] [] []).max = 10 ∧
    limitsOf [QOp.orderBy ["name".toList], QOp.limit 10, QOp.offset 10]
      = (if (10 : Int) > 0 then [10] else []) ∧
    offsetsOf [QOp.orderBy ["name".toList], QOp.limit 10, QOp.offset 10]
      = (if ((2 : Int) - 1) * 10 > 0 then [((2 : Int) - 1) * 10] else []) :=
  parseOptions_pagination 2 10 "name".toList [] [] []
    [QOp.orderBy ["name".toList], QOp.limit 10, QOp.offset 10] (by decide)
